import Mathlib

/-!
Finance tracker: shallow embedding and verification.

A shallow embedding of the core of the finance-tracker server
(wallet pool, ledger sequencer, transaction submission, login,
dashboard aggregation), translated from the consolidated server file
(`src/unnamed/part_002`, the variant with auto wallet assignment),
with theorems settling the testable properties of the specification.

Amounts (JS numbers) are modelled as rationals, and the raw body
amount may be a JSON number or a JSON string, as the handler checks
the raw value's truthiness before `parseFloat`; JS truthiness
(`!s` is true exactly on the empty string, `!n` on zero) is modelled
explicitly; absent JSON fields are `Option.none`.
-/

namespace FinanceTracker

/-- JS `x || d` for an optional string field: `undefined`/`null` and the
empty string are falsy, so they fall through to the default `d`.
Mirrors expressions such as `receiver || 'external_sender'` and
`category || 'other'` in the transaction handler. -/
def jsOr (x : Option String) (d : String) : String :=
  match x with
  | none => d
  | some v => if v = "" then d else v

/-! ## Wallet Pool

From `src/unnamed/part_002` lines 93–118: a fixed array
`AVAILABLE_WALLETS`, a process-wide assigned set, and
`getAvailableWallet()` scanning the pool in definition order,
recording and returning the first unassigned address, or throwing
`'No more wallets available'` when all are taken.  The assigned set is
modelled as the list of addresses assigned so far (insertion order);
exhaustion is `Option.none`. -/

def AVAILABLE_WALLETS : List String :=
  [ "0x90F8bf6A479f320ead074411a4B0e7944Ea8c9C1",
    "0xFFcf8FDEE72ac11b5c542428B35EEF5769C409f0",
    "0x22d491Bde2303f2f43325b2108D26f1eAbA1e32b",
    "0xE11BA2b4D45Eaed5996Cd0823791E0C93114882d",
    "0xd03ea8624C8C5987235048901fB614fDcA89b117",
    "0x95cED938F7991cd0dFcb48F0a06a40FA1aF46EBC",
    "0x3E5e9111Ae8eB78Fe1CC3bb8915d5D461F3Ef9A9",
    "0x28a8746e75304c0780E011BEd21C72cD78cd535E",
    "0xACa94ef8bD5ffEE41947b4585a84BdA5a3d3DA6E",
    "0x1dF62f291b2E969fB0849d99D9Ce41e2F137006e" ]

/-- The function `getAvailableWallet()` over an explicit pool and
assigned set: scan the pool in order, return the first address not in the assigned set
together with the updated assigned set; `none` models the thrown
`'No more wallets available'`. -/
def getAvailableWallet (pool assigned : List String) : Option (String × List String) :=
  match pool with
  | [] => none
  | w :: rest =>
      if w ∈ assigned then getAvailableWallet rest assigned
      else some (w, assigned ++ [w])

/-- Run `n` consecutive wallet assignments starting from assigned set
`assigned`, collecting each outcome in order together with the final
assigned set.  A failed assignment leaves the set unchanged. -/
def runAssigns (pool : List String) : Nat → List String → List (Option String) × List String
  | 0, assigned => ([], assigned)
  | n + 1, assigned =>
      match getAvailableWallet pool assigned with
      | none =>
          let rest := runAssigns pool n assigned
          (none :: rest.1, rest.2)
      | some (w, assigned') =>
          let rest := runAssigns pool n assigned'
          (some w :: rest.1, rest.2)

/-! ### Wallet pool lemmas -/

theorem getAvailableWallet_spec {pool assigned : List String} {w : String}
    {assigned' : List String}
    (h : getAvailableWallet pool assigned = some (w, assigned')) :
    w ∈ pool ∧ w ∉ assigned ∧ assigned' = assigned ++ [w] := by
  induction pool with
  | nil => simp [getAvailableWallet] at h
  | cons x rest ih =>
      by_cases hx : x ∈ assigned
      · simp only [getAvailableWallet, if_pos hx] at h
        rcases ih h with ⟨h1, h2, h3⟩
        exact ⟨List.mem_cons_of_mem _ h1, h2, h3⟩
      · simp only [getAvailableWallet, if_neg hx, Option.some.injEq, Prod.mk.injEq] at h
        rcases h with ⟨rfl, rfl⟩
        exact ⟨List.mem_cons_self _ _, hx, rfl⟩

theorem getAvailableWallet_exhausted {pool assigned : List String}
    (h : ∀ w ∈ pool, w ∈ assigned) :
    getAvailableWallet pool assigned = none := by
  induction pool with
  | nil => rfl
  | cons x rest ih =>
      have hx : x ∈ assigned := h x (List.mem_cons_self _ _)
      simp only [getAvailableWallet, if_pos hx]
      exact ih fun w hw => h w (List.mem_cons_of_mem _ hw)

/-- Scanning skips a prefix whose members are all already assigned. -/
theorem getAvailableWallet_append_skip {pre post assigned : List String}
    (h : ∀ w ∈ pre, w ∈ assigned) :
    getAvailableWallet (pre ++ post) assigned = getAvailableWallet post assigned := by
  induction pre with
  | nil => rfl
  | cons x rest ih =>
      have hx : x ∈ assigned := h x (List.mem_cons_self _ _)
      simp only [List.cons_append, getAvailableWallet, if_pos hx]
      exact ih fun w hw => h w (List.mem_cons_of_mem _ hw)

/-- When the assigned set is exactly the first `n` pool entries (pool
without duplicates), the scan returns the `(n+1)`-st pool entry. -/
theorem getAvailableWallet_take {pool : List String} (hnd : pool.Nodup)
    {n : Nat} (hn : n < pool.length) :
    getAvailableWallet pool (pool.take n) =
      some (pool[n], pool.take (n + 1)) := by
  have hsplit : pool = pool.take n ++ (pool[n] :: pool.drop (n + 1)) := by
    conv_lhs => rw [← List.take_append_drop n pool]
    rw [List.drop_eq_getElem_cons hn]
  have hmem : pool[n] ∉ pool.take n := by
    intro hcontra
    have hdisj := List.disjoint_take_drop (l := pool) hnd (Nat.le_refl n)
    have hdrop : pool[n] ∈ pool.drop n := by
      rw [List.drop_eq_getElem_cons hn]
      exact List.mem_cons_self _ _
    exact hdisj hcontra hdrop
  nth_rewrite 1 [hsplit]
  rw [getAvailableWallet_append_skip fun w hw => hw]
  simp only [getAvailableWallet, if_neg hmem]
  rw [List.take_concat_get' pool n hn]

/-- Running assignments from the state «first `k` pool entries assigned»
hands out the next `n` pool entries in pool order. -/
theorem runAssigns_take {pool : List String} (hnd : pool.Nodup) :
    ∀ n k, k + n ≤ pool.length →
      runAssigns pool n (pool.take k) =
        (((pool.drop k).take n).map some, pool.take (k + n)) := by
  intro n
  induction n with
  | zero => intro k _; simp [runAssigns]
  | succ m ih =>
      intro k hk
      have hklt : k < pool.length := by omega
      have hstep := getAvailableWallet_take hnd hklt
      simp only [runAssigns, hstep]
      have hrest := ih (k + 1) (by omega)
      rw [hrest]
      have hdropk : pool.drop k = pool[k] :: pool.drop (k + 1) :=
        List.drop_eq_getElem_cons hklt
      simp only [Prod.mk.injEq]
      refine ⟨?_, ?_⟩
      · rw [hdropk, List.take_succ_cons, List.map_cons]
      · rw [show k + 1 + m = k + (m + 1) by omega]

/-! ## Data model

Transaction records as persisted by the consolidated server
(`src/unnamed/part_002` lines 70–89).  The `timestamp`, `blockchainHash`
(a random string) and `status` fields are never read by the verified
operations and are omitted; amounts are rationals in place of JS
numbers. -/

structure Tx where
  transactionId : Nat
  description : String
  amount : Rat
  type : String
  category : String
  sender : String
  receiver : String
  createdBy : String
deriving DecidableEq

/-- The category enumeration of the transaction schema. -/
def CATEGORIES : List String :=
  ["salary", "rent", "equipment", "utilities", "marketing", "other"]

/-- An HTTP-level response, reduced to what the claims observe:
status code, success flag, and the error message (if any). -/
structure Resp where
  status : Nat
  success : Bool
  error : Option String
deriving DecidableEq

/-! ## Ledger Sequencer

Id generation from the transaction handler (`src/unnamed/part_002`
lines 430–432):
`Transaction.findOne().sort({ transactionId: -1 })` followed by
`lastTransaction ? lastTransaction.transactionId + 1 : 1`. -/

/-- The query `Transaction.findOne().sort({ transactionId: -1 })`: a
stored transaction with the highest `transactionId`, or `none` on an
empty store.  (The unique index on `transactionId` rules out ties.) -/
def findOneSortByIdDesc : List Tx → Option Tx
  | [] => none
  | t :: ts =>
      match findOneSortByIdDesc ts with
      | none => some t
      | some u => if u.transactionId ≤ t.transactionId then some t else some u

/-- Id generation: one plus the id of the highest-id transaction, or 1
when the store is empty. -/
def nextId (store : List Tx) : Nat :=
  match findOneSortByIdDesc store with
  | none => 1
  | some t => t.transactionId + 1

/-- Spec-side definition («one plus the highest transaction identifier
currently present»): the running maximum of all stored ids. -/
def highestId (store : List Tx) : Option Nat :=
  (store.map Tx.transactionId).foldl
    (fun acc i =>
      match acc with
      | none => some i
      | some m => some (Nat.max m i)) none

/-! ## Transaction submission

The handler of `POST /api/transactions` (`src/unnamed/part_002` lines
401–475), for an authenticated principal whose wallet and user id have
been resolved (token verification, the database-connection check and
the user lookup are the surrounding steps and succeed here).  Mongoose
validates the schema enums when `transaction.save()` runs, and the
unique index on `transactionId` rejects duplicate ids at write time. -/

/-- The raw JSON `amount` value of the request body: a JSON number or
a JSON string.  The handler tests the truthiness of this raw value in
`!description || !amount || !type` and only then applies
`parseFloat(amount)` when building the record — so a string amount is
truthy even when it denotes zero. -/
inductive RawAmount where
  | num (q : Rat)
  | str (s : String)
deriving DecidableEq

/-- JS falsiness of the raw amount: the number 0 and the empty string
are the falsy cases. -/
def RawAmount.falsy : RawAmount → Bool
  | num q => decide (q = 0)
  | str s => decide (s = "")

/-- The numeric value denoted by a string of ASCII digits. -/
def digitsVal (s : String) : Nat :=
  s.data.foldl (fun acc c => acc * 10 + (c.toNat - 48)) 0

/-- JS `parseFloat` on the raw amount: a number parses to itself and a
digit string to the number it denotes.  (parseFloat sends other strings
to other floats or NaN; no statement below observes the stored amount
of such a body, and `digitsVal` merely keeps the function total on
them.) -/
def parseFloat : RawAmount → Rat
  | RawAmount.num q => q
  | RawAmount.str s => (digitsVal s : Rat)

/-- The request body of a submission.  An absent `type`/`description`
is modelled as `""` (JS `undefined` and `""` are equally falsy for the
`!description || !amount || !type` check); absent optional fields are
`none`; `amount` is the raw JSON value, parsed only after
validation. -/
structure SubmitBody where
  description : String
  amount : RawAmount
  type : String
  category : Option String
  receiver : Option String
deriving DecidableEq

def respValidationTx : Resp :=
  ⟨400, false, some "Description, amount, and type are required"⟩

def respCreated : Resp := ⟨201, true, none⟩

def respServerError (msg : String) : Resp := ⟨500, false, some msg⟩

def msgEnumType : String :=
  "Transaction validation failed: type is not a valid enum value"

def msgEnumCategory : String :=
  "Transaction validation failed: category is not a valid enum value"

def msgDuplicateKey : String := "duplicate key error: transactionId"

/-- The effect of `transaction.save()`: mongoose validates the `type`
and `category` enums; the unique index on `transactionId` rejects a
duplicate id; otherwise the record is appended to the store. -/
def saveTx (store : List Tx) (t : Tx) : Except String (List Tx) :=
  if ¬(t.type = "income" ∨ t.type = "expense") then
    Except.error msgEnumType
  else if ¬(t.category ∈ CATEGORIES) then
    Except.error msgEnumCategory
  else if store.any (fun s => s.transactionId == t.transactionId) then
    Except.error msgDuplicateKey
  else
    Except.ok (store ++ [t])

/-- The transaction record built by the handler: fresh id from the
sequencer, sender/receiver attribution from the direction and the
principal's wallet, category defaulted to `"other"`. -/
def mkTx (store : List Tx) (wallet userId : String) (b : SubmitBody) : Tx :=
  { transactionId := nextId store
    description := b.description
    amount := parseFloat b.amount
    type := b.type
    category := jsOr b.category "other"
    sender := if b.type = "income" then jsOr b.receiver "external_sender" else wallet
    receiver := if b.type = "income" then wallet else jsOr b.receiver "external_receiver"
    createdBy := userId }

/-- The outcome of one submission: the response, the created record
(if any), and the store after the request. -/
structure SubmitResult where
  resp : Resp
  created : Option Tx
  store : List Tx
deriving DecidableEq

/-- The `POST /api/transactions` handler body. -/
def submit (store : List Tx) (wallet userId : String) (b : SubmitBody) : SubmitResult :=
  if b.description = "" ∨ b.amount.falsy ∨ b.type = "" then
    ⟨respValidationTx, none, store⟩
  else
    let tx := mkTx store wallet userId b
    match saveTx store tx with
    | Except.ok store' => ⟨respCreated, some tx, store'⟩
    | Except.error e => ⟨respServerError e, none, store⟩

/-- One submission request: the resolved principal (wallet, user id)
and the body. -/
structure SubmitReq where
  wallet : String
  userId : String
  body : SubmitBody

/-- Sequential execution of submission requests against the store; a
failed request leaves the store as it was. -/
def runSubmits (store : List Tx) : List SubmitReq → List Tx
  | [] => store
  | r :: rs => runSubmits (submit store r.wallet r.userId r.body).store rs

/-! ## Registration and login

From `src/unnamed/part_002` lines 215–365.  `bcrypt.hash` and
`bcrypt.compare` are opaque capabilities per the spec and enter as
function parameters. -/

structure RegUser where
  username : String
  email : String
  password : String
  walletAddress : String
deriving DecidableEq

/-- The process state touched by registration: persisted users and the
wallet pool's assigned set. -/
structure RegState where
  users : List RegUser
  assigned : List String
deriving DecidableEq

def respRegValidation : Resp :=
  ⟨400, false, some "Username, email, and password are required"⟩

def respRegDuplicate : Resp :=
  ⟨400, false, some "User with this email or username already exists"⟩

def respPoolExhausted : Resp :=
  ⟨500, false, some "No more wallets available"⟩

def respRegCreated : Resp := ⟨201, true, none⟩

def msgUserSaveFailed : String := "user save failed"

/-- The `POST /api/auth/register` handler body.  `hash` models
`bcrypt.hash`; `saveOk` models the outcome of `await user.save()`
(`false`: the store rejects the write — e.g. a unique-index race or a
write error — so `save` throws and the `catch` block answers).  The
wallet is drawn from the pool before the save, and the `catch` block
does not undo the draw. -/
def register (pool : List String) (st : RegState)
    (username email password : String) (hash : String → String)
    (saveOk : Bool) : Resp × RegState :=
  if username = "" ∨ email = "" ∨ password = "" then
    (respRegValidation, st)
  else if st.users.any (fun u => u.email == email || u.username == username) then
    (respRegDuplicate, st)
  else
    match getAvailableWallet pool st.assigned with
    | none => (respPoolExhausted, st)
    | some (w, assigned') =>
        if saveOk then
          (respRegCreated,
           ⟨st.users ++ [⟨username, email, hash password, w⟩], assigned'⟩)
        else
          (respServerError msgUserSaveFailed, ⟨st.users, assigned'⟩)

/-- The query `User.findOne({ email })`. -/
def findUserByEmail (users : List RegUser) (email : String) : Option RegUser :=
  users.find? (fun u => u.email == email)

def respLoginValidation : Resp :=
  ⟨400, false, some "Email and password are required"⟩

def respInvalidCredentials : Resp :=
  ⟨400, false, some "Invalid email or password"⟩

def respLoginOk : Resp := ⟨200, true, none⟩

/-- The `POST /api/auth/login` handler body.  `verify` models
`bcrypt.compare`. -/
def login (users : List RegUser) (verify : String → String → Bool)
    (email password : String) : Resp :=
  if email = "" ∨ password = "" then respLoginValidation
  else
    match findUserByEmail users email with
    | none => respInvalidCredentials
    | some u =>
        if verify password u.password then respLoginOk
        else respInvalidCredentials

/-! ## Aggregation Engine

The dashboard summary (`src/unnamed/part_002` lines 516–535): income
and expense totals by filter-and-reduce, balance as their difference,
and a per-category fold building `{income, expense, total}` buckets
lazily (a JS object, modelled as an association list in insertion
order). -/

structure CategoryBucket where
  income : Rat
  expense : Rat
  total : Rat
deriving DecidableEq

/-- One bucket update: `acc[category][transaction.type] += amount` and
`acc[category].total += amount`.  The schema enum restricts `type` to
`"income"`/`"expense"`, so exactly one direction field is bumped. -/
def bumpBucket (b : CategoryBucket) (t : Tx) : CategoryBucket :=
  { income := if t.type = "income" then b.income + t.amount else b.income
    expense := if t.type = "expense" then b.expense + t.amount else b.expense
    total := b.total + t.amount }

/-- Fold one transaction into the category map, creating a zeroed
bucket on first occurrence of the category. -/
def updateCategory : List (String × CategoryBucket) → Tx → List (String × CategoryBucket)
  | [], t => [(t.category, bumpBucket ⟨0, 0, 0⟩ t)]
  | (c, b) :: rest, t =>
      if c = t.category then (c, bumpBucket b t) :: rest
      else (c, b) :: updateCategory rest t

structure Summary where
  totalIncome : Rat
  totalExpenses : Rat
  balance : Rat
  byCategory : List (String × CategoryBucket)

/-- The dashboard computation over the principal's transaction set. -/
def summarize (ts : List Tx) : Summary :=
  let totalIncome :=
    ((ts.filter fun t => t.type = "income").map Tx.amount).foldl (· + ·) 0
  let totalExpenses :=
    ((ts.filter fun t => t.type = "expense").map Tx.amount).foldl (· + ·) 0
  { totalIncome := totalIncome
    totalExpenses := totalExpenses
    balance := totalIncome - totalExpenses
    byCategory := ts.foldl updateCategory [] }

/-- The sum of `byCategory[*].total` over all buckets. -/
def sumCategoryTotals (m : List (String × CategoryBucket)) : Rat :=
  (m.map fun p => p.2.total).sum

/-! ## Sequencer lemmas -/

theorem findOneSortByIdDesc_eq_none {store : List Tx} :
    findOneSortByIdDesc store = none ↔ store = [] := by
  cases store with
  | nil => simp [findOneSortByIdDesc]
  | cons t ts =>
      cases hts : findOneSortByIdDesc ts <;>
        simp [findOneSortByIdDesc, hts]
      split <;> simp

theorem findOneSortByIdDesc_spec {store : List Tx} :
    ∀ {t : Tx}, findOneSortByIdDesc store = some t →
      t ∈ store ∧ ∀ s ∈ store, s.transactionId ≤ t.transactionId := by
  induction store with
  | nil => intro t h; simp [findOneSortByIdDesc] at h
  | cons x ts ih =>
      intro t h
      cases hts : findOneSortByIdDesc ts with
      | none =>
          have hts' : ts = [] := findOneSortByIdDesc_eq_none.mp hts
          subst hts'
          simp [findOneSortByIdDesc] at h
          subst h
          simp
      | some u =>
          simp only [findOneSortByIdDesc, hts] at h
          by_cases hle : u.transactionId ≤ x.transactionId
          · rw [if_pos hle, Option.some.injEq] at h
            subst h
            refine ⟨List.mem_cons_self _ _, ?_⟩
            intro s hs
            rcases List.mem_cons.mp hs with rfl | hs'
            · exact Nat.le_refl _
            · exact Nat.le_trans ((ih hts).2 s hs') hle
          · rw [if_neg hle, Option.some.injEq] at h
            subst h
            refine ⟨List.mem_cons_of_mem _ (ih hts).1, ?_⟩
            intro s hs
            rcases List.mem_cons.mp hs with rfl | hs'
            · exact Nat.le_of_lt (Nat.lt_of_not_le hle)
            · exact (ih hts).2 s hs'

theorem foldl_natMax_spec (xs : List Nat) :
    ∀ x : Nat, xs.foldl Nat.max x ∈ x :: xs ∧ ∀ i ∈ x :: xs, i ≤ xs.foldl Nat.max x := by
  induction xs with
  | nil => intro x; simp
  | cons y ys ih =>
      intro x
      have hrec := ih (Nat.max x y)
      constructor
      · rcases List.mem_cons.mp hrec.1 with hm | hm
        · rcases Nat.le_total x y with hxy | hxy
          · have hmax : Nat.max x y = y := Nat.max_eq_right hxy
            rw [hmax] at hm
            simp only [List.foldl_cons, hmax, hm]
            simp
          · have hmax : Nat.max x y = x := Nat.max_eq_left hxy
            rw [hmax] at hm
            simp only [List.foldl_cons, hmax, hm]
            simp
        · simp only [List.foldl_cons]
          exact List.mem_cons_of_mem _ (List.mem_cons_of_mem _ hm)
      · intro i hi
        simp only [List.foldl_cons]
        rcases List.mem_cons.mp hi with rfl | hi'
        · exact Nat.le_trans (Nat.le_max_left _ y)
            (hrec.2 _ (List.mem_cons_self _ _))
        · rcases List.mem_cons.mp hi' with rfl | hi''
          · exact Nat.le_trans (Nat.le_max_right x _)
              (hrec.2 _ (List.mem_cons_self _ _))
          · exact hrec.2 _ (List.mem_cons_of_mem _ hi'')

theorem highestId_fold_some (xs : List Nat) :
    ∀ m : Nat,
      xs.foldl
        (fun acc i =>
          match acc with
          | none => some i
          | some m' => some (Nat.max m' i)) (some m) = some (xs.foldl Nat.max m) := by
  induction xs with
  | nil => intro m; rfl
  | cons y ys ih => intro m; simpa using ih (Nat.max m y)

theorem highestId_spec {store : List Tx} {m : Nat}
    (h : highestId store = some m) :
    m ∈ store.map Tx.transactionId ∧ ∀ i ∈ store.map Tx.transactionId, i ≤ m := by
  cases store with
  | nil => simp [highestId] at h
  | cons t ts =>
      have hfold :
          highestId (t :: ts) = some ((ts.map Tx.transactionId).foldl Nat.max t.transactionId) := by
        simp only [highestId, List.map_cons, List.foldl_cons]
        exact highestId_fold_some (ts.map Tx.transactionId) t.transactionId
      rw [hfold, Option.some.injEq] at h
      subst h
      have := foldl_natMax_spec (ts.map Tx.transactionId) t.transactionId
      simpa using this

theorem highestId_eq_none {store : List Tx} :
    highestId store = none ↔ store = [] := by
  cases store with
  | nil => simp [highestId]
  | cons t ts =>
      simp only [highestId, List.map_cons, List.foldl_cons]
      rw [highestId_fold_some]
      simp

/-- C3: the sequencer's id generation returns one plus the highest
transaction identifier present in the store, and 1 when the store has
no transactions, for every store state.  `highestId` is the maximum of
the stored ids (last conjunct), and it is absent exactly on the empty
store (middle conjunct). -/
theorem claim_C3_nextId (store : List Tx) :
    nextId store =
      (match highestId store with
       | none => 1
       | some m => m + 1) ∧
    (highestId store = none ↔ store = []) ∧
    (∀ m, highestId store = some m →
        (∃ t ∈ store, t.transactionId = m) ∧ ∀ t ∈ store, t.transactionId ≤ m) := by
  refine ⟨?_, highestId_eq_none, ?_⟩
  · cases hfo : findOneSortByIdDesc store with
    | none =>
        have hst : store = [] := findOneSortByIdDesc_eq_none.mp hfo
        subst hst
        rfl
    | some t =>
        have hne : store ≠ [] := by
          intro hcontra
          subst hcontra
          simp [findOneSortByIdDesc] at hfo
        cases hhi : highestId store with
        | none => exact absurd (highestId_eq_none.mp hhi) hne
        | some m =>
            have h1 := findOneSortByIdDesc_spec hfo
            have h2 := highestId_spec hhi
            have hmt : m = t.transactionId := by
              rcases List.mem_map.mp h2.1 with ⟨s, hs, hsm⟩
              have hle1 : m ≤ t.transactionId := hsm ▸ h1.2 s hs
              have hle2 : t.transactionId ≤ m :=
                h2.2 _ (List.mem_map_of_mem Tx.transactionId h1.1)
              exact Nat.le_antisymm hle1 hle2
            simp [nextId, hfo, hmt]
  · intro m hm
    have h2 := highestId_spec hm
    constructor
    · rcases List.mem_map.mp h2.1 with ⟨s, hs, hsm⟩
      exact ⟨s, hs, hsm⟩
    · intro t ht
      exact h2.2 _ (List.mem_map_of_mem Tx.transactionId ht)

/-- A concrete store for witness instantiations. -/
def sampleStore : List Tx :=
  [ ⟨3, "Paycheck", 1000, "income", "salary", "external_sender", "0xW1", "u1"⟩,
    ⟨7, "Rent", 400, "expense", "rent", "0xW1", "external_receiver", "u1"⟩ ]

/-- Witness for C3: on a concrete store with ids {3, 7} the next id is
8, and on the empty store it is 1. -/
theorem claim_C3_nextId_witness :
    nextId sampleStore = 8 ∧ nextId ([] : List Tx) = 1 := by
  have h1 := (claim_C3_nextId sampleStore).1
  have h2 := (claim_C3_nextId ([] : List Tx)).1
  exact ⟨h1.trans (by rfl), h2.trans (by rfl)⟩

/-! ## Submission lemmas -/

theorem saveTx_ok {store : List Tx} {t : Tx} {store' : List Tx}
    (h : saveTx store t = Except.ok store') :
    store' = store ++ [t] ∧ (t.type = "income" ∨ t.type = "expense") := by
  unfold saveTx at h
  split at h
  · exact absurd h (by simp)
  · split at h
    · exact absurd h (by simp)
    · split at h
      · exact absurd h (by simp)
      · rename_i hty _ _
        cases h
        exact ⟨rfl, not_not.mp hty⟩

/-- Every submission either fails leaving the store untouched and
creating nothing, or appends exactly the constructed record. -/
theorem submit_store_shape (store : List Tx) (w u : String) (b : SubmitBody) :
    ((submit store w u b).store = store ∧ (submit store w u b).created = none) ∨
    ((submit store w u b).created = some (mkTx store w u b) ∧
      (submit store w u b).store = store ++ [mkTx store w u b]) := by
  by_cases hval : b.description = "" ∨ b.amount.falsy ∨ b.type = ""
  · left
    simp [submit, hval]
  · cases hs : saveTx store (mkTx store w u b) with
    | ok s' =>
        right
        have hshape := saveTx_ok hs
        constructor <;> simp [submit, hval, hs, hshape.1]
    | error e =>
        left
        constructor <;> simp [submit, hval, hs]

theorem nextId_of_range {store : List Tx}
    (hmap : store.map Tx.transactionId = List.range' 1 store.length) :
    nextId store = store.length + 1 := by
  cases hst : store with
  | nil => rfl
  | cons x ts =>
      subst hst
      cases hfo : findOneSortByIdDesc (x :: ts) with
      | none =>
          exact absurd (findOneSortByIdDesc_eq_none.mp hfo) (by simp)
      | some t =>
          have hspec := findOneSortByIdDesc_spec hfo
          have htid : t.transactionId ∈ List.range' 1 (x :: ts).length := by
            rw [← hmap]
            exact List.mem_map_of_mem Tx.transactionId hspec.1
          have hbound := List.mem_range'_1.mp htid
          have hlenmem : (x :: ts).length ∈ List.range' 1 (x :: ts).length :=
            List.mem_range'_1.mpr ⟨by simp, by omega⟩
          have hlenmem' : (x :: ts).length ∈ (x :: ts).map Tx.transactionId := by
            rw [hmap]; exact hlenmem
          rcases List.mem_map.mp hlenmem' with ⟨s, hs, hsid⟩
          have hle : (x :: ts).length ≤ t.transactionId := hsid ▸ hspec.2 s hs
          have heq : t.transactionId = (x :: ts).length := by omega
          simp [nextId, hfo, heq]

theorem submit_ids_invariant {store : List Tx}
    (hmap : store.map Tx.transactionId = List.range' 1 store.length)
    (w u : String) (b : SubmitBody) :
    (submit store w u b).store.map Tx.transactionId =
      List.range' 1 (submit store w u b).store.length := by
  rcases submit_store_shape store w u b with ⟨h1, _⟩ | ⟨_, h2⟩
  · rw [h1]; exact hmap
  · rw [h2]
    have hid : (mkTx store w u b).transactionId = store.length + 1 :=
      nextId_of_range hmap
    rw [List.map_append, hmap, List.length_append]
    simp only [List.map_cons, List.map_nil, List.length_cons, List.length_nil]
    rw [hid, List.range'_concat]
    simp [Nat.add_comm]

theorem runSubmits_ids_invariant (reqs : List SubmitReq) :
    ∀ store : List Tx,
      store.map Tx.transactionId = List.range' 1 store.length →
      (runSubmits store reqs).map Tx.transactionId =
        List.range' 1 (runSubmits store reqs).length := by
  induction reqs with
  | nil => intro store h; exact h
  | cons r rs ih =>
      intro store h
      exact ih _ (submit_ids_invariant h r.wallet r.userId r.body)

/-- C1: executing any sequence of transaction submissions sequentially
against an initially empty store yields committed transaction ids that
are exactly the gap-free increasing sequence 1, 2, …, n (hence pairwise
distinct, with each successful commit receiving one plus the previous
maximum and no id reused). -/
theorem claim_C1_gap_free_ids (reqs : List SubmitReq) :
    (runSubmits [] reqs).map Tx.transactionId =
      List.range' 1 (runSubmits [] reqs).length ∧
    ((runSubmits [] reqs).map Tx.transactionId).Nodup := by
  have h := runSubmits_ids_invariant reqs [] (by rfl)
  exact ⟨h, h ▸ List.nodup_range' 1 (runSubmits [] reqs).length⟩

theorem submit_created {store : List Tx} {w u : String} {b : SubmitBody} {tx : Tx}
    (h : (submit store w u b).created = some tx) : tx = mkTx store w u b := by
  rcases submit_store_shape store w u b with ⟨_, hcr⟩ | ⟨hcr, _⟩
  · rw [hcr] at h
    simp at h
  · rw [hcr] at h
    exact (Option.some.inj h).symm

/-- Spec-side description of the attribution fallback: the supplied
counterparty address when one is supplied, the sentinel otherwise. -/
def counterpartyOrSentinel (x : Option String) (d : String) : String :=
  match x with
  | none => d
  | some v => v

/-- With the counterparty field either absent or a nonempty address,
the JS fallback picks the field when present and the sentinel when
absent. -/
theorem jsOr_of_ne_empty {x : Option String} (hx : x ≠ some "") (d : String) :
    jsOr x d = counterpartyOrSentinel x d := by
  cases x with
  | none => rfl
  | some v =>
      have hv : v ≠ "" := fun hcontra => hx (by rw [hcontra])
      simp [jsOr, counterpartyOrSentinel, hv]

/-- C2: attribution of every created transaction.  For an income
submission the stored receiver is the principal's wallet and the stored
sender is the supplied counterparty address, or the sentinel
`"external_sender"` when none is supplied; for an expense submission
the stored sender is the wallet and the stored receiver is the supplied
counterparty, or the sentinel `"external_receiver"` when none is
supplied.  (A supplied counterparty is an address, hence nonempty.) -/
theorem claim_C2_attribution (store : List Tx) (wallet userId : String)
    (b : SubmitBody) (hcp : b.receiver ≠ some "") :
    (b.type = "income" →
      ∀ tx, (submit store wallet userId b).created = some tx →
        tx.receiver = wallet ∧
        tx.sender = counterpartyOrSentinel b.receiver "external_sender") ∧
    (b.type = "expense" →
      ∀ tx, (submit store wallet userId b).created = some tx →
        tx.sender = wallet ∧
        tx.receiver = counterpartyOrSentinel b.receiver "external_receiver") := by
  constructor
  · intro hty tx htx
    have htx' := submit_created htx
    subst htx'
    constructor
    · simp [mkTx, hty]
    · simp only [mkTx, hty, if_pos]
      exact jsOr_of_ne_empty hcp _
  · intro hty tx htx
    have htx' := submit_created htx
    subst htx'
    have hne : b.type ≠ "income" := by rw [hty]; decide
    constructor
    · simp [mkTx, hne]
    · simp only [mkTx, if_neg hne]
      exact jsOr_of_ne_empty hcp _

/-- Witness for C2: a concrete income submission stores receiver = the
wallet and sender = the sentinel; a concrete expense submission with a
supplied counterparty stores sender = the wallet and receiver = the
counterparty. -/
theorem claim_C2_attribution_witness :
    ((submit [] "0xW1" "u1" ⟨"Paycheck", RawAmount.num 1000, "income", some "salary", none⟩).created.map
        Tx.receiver = some "0xW1") ∧
    ((submit [] "0xW1" "u1" ⟨"Paycheck", RawAmount.num 1000, "income", some "salary", none⟩).created.map
        Tx.sender = some "external_sender") ∧
    ((submit [] "0xW1" "u1" ⟨"Rent", RawAmount.num 400, "expense", some "rent", some "0xL"⟩).created.map
        Tx.sender = some "0xW1") ∧
    ((submit [] "0xW1" "u1" ⟨"Rent", RawAmount.num 400, "expense", some "rent", some "0xL"⟩).created.map
        Tx.receiver = some "0xL") := by
  have e1 : (submit [] "0xW1" "u1" ⟨"Paycheck", RawAmount.num 1000, "income", some "salary", none⟩).created
      = some (mkTx [] "0xW1" "u1" ⟨"Paycheck", RawAmount.num 1000, "income", some "salary", none⟩) := by
    decide
  have e2 : (submit [] "0xW1" "u1" ⟨"Rent", RawAmount.num 400, "expense", some "rent", some "0xL"⟩).created
      = some (mkTx [] "0xW1" "u1" ⟨"Rent", RawAmount.num 400, "expense", some "rent", some "0xL"⟩) := by
    decide
  have h1 := (claim_C2_attribution [] "0xW1" "u1"
      ⟨"Paycheck", RawAmount.num 1000, "income", some "salary", none⟩ (by decide)).1 rfl _ e1
  have h2 := (claim_C2_attribution [] "0xW1" "u1"
      ⟨"Rent", RawAmount.num 400, "expense", some "rent", some "0xL"⟩ (by decide)).2 rfl _ e2
  refine ⟨?_, ?_, ?_, ?_⟩
  · rw [e1]
    simp only [Option.map_some']
    rw [h1.1]
  · rw [e1]
    simp only [Option.map_some']
    rw [h1.2]
    rfl
  · rw [e2]
    simp only [Option.map_some']
    rw [h2.1]
  · rw [e2]
    simp only [Option.map_some']
    rw [h2.2]
    rfl

/-- C8: a submission whose direction is neither "income" nor "expense"
fails and creates no transaction record; when the request passes the
truthiness validation, the failure is the schema's direction-enum
rejection (the handler itself has no direction check — the invalid
value is caught when the store validates the record on save). -/
theorem claim_C8_invalid_direction (store : List Tx) (w u : String) (b : SubmitBody)
    (h1 : b.type ≠ "income") (h2 : b.type ≠ "expense") :
    (submit store w u b).created = none ∧
    (submit store w u b).store = store ∧
    (submit store w u b).resp.success = false ∧
    (b.description ≠ "" → b.amount.falsy = false → b.type ≠ "" →
      (submit store w u b).resp = respServerError msgEnumType) := by
  by_cases hval : b.description = "" ∨ b.amount.falsy ∨ b.type = ""
  · refine ⟨?_, ?_, ?_, fun hd ha ht => ?_⟩
    · simp [submit, hval]
    · simp [submit, hval]
    · simp [submit, hval, respValidationTx]
    · exact absurd hval (by simp [hd, ha, ht])
  · have hc : ¬((mkTx store w u b).type = "income" ∨ (mkTx store w u b).type = "expense") := by
      simp only [mkTx]
      rintro (hc | hc)
      · exact h1 hc
      · exact h2 hc
    have hsave : saveTx store (mkTx store w u b) = Except.error msgEnumType := by
      simp [saveTx, hc]
    refine ⟨?_, ?_, ?_, fun _ _ _ => ?_⟩ <;> simp [submit, hval, hsave, respServerError]

/-- Witness for C8: a concrete submission with direction "transfer"
creates nothing, leaves the store unchanged, and yields the
direction-enum validation error. -/
theorem claim_C8_invalid_direction_witness :
    (submit [] "0xW1" "u1" ⟨"Refund", RawAmount.num 5, "transfer", none, none⟩).created = none ∧
    (submit [] "0xW1" "u1" ⟨"Refund", RawAmount.num 5, "transfer", none, none⟩).store = [] ∧
    (submit [] "0xW1" "u1" ⟨"Refund", RawAmount.num 5, "transfer", none, none⟩).resp =
      respServerError msgEnumType := by
  have h := claim_C8_invalid_direction [] "0xW1" "u1" ⟨"Refund", RawAmount.num 5, "transfer", none, none⟩
    (by decide) (by decide)
  exact ⟨h.1, h.2.1, h.2.2.2 (by decide) (by decide) (by decide)⟩

/-- Counterexample to C10 as stated: the handler checks the truthiness
of the raw body value, so the string amount `"0"` is truthy, passes
`!amount`, and `parseFloat` stores an amount-0 record — the
submission succeeds and persists a transaction with amount 0, so an
amount-0 transaction can be created through the public interface. -/
theorem claim_C10_counterexample :
    (submit [] "0xW1" "u1"
        ⟨"Paycheck", RawAmount.str "0", "income", some "salary", none⟩).resp = respCreated ∧
    (submit [] "0xW1" "u1"
        ⟨"Paycheck", RawAmount.str "0", "income", some "salary", none⟩).created.map Tx.amount =
      some 0 ∧
    (submit [] "0xW1" "u1"
        ⟨"Paycheck", RawAmount.str "0", "income", some "salary", none⟩).store.map Tx.amount =
      [0] := by
  decide

/-- C10 amended: a submission whose raw amount is the JSON number 0 or
whose description is empty is rejected by the falsy required-field
check with the missing-required-field validation error and no record
is written; the never-created conclusion, however, fails — an amount-0
record can still be created by supplying the amount as the truthy
string `"0"`, which passes the check and parses to 0. -/
theorem claim_C10_falsy_required_fields (store : List Tx) (w u : String) (b : SubmitBody)
    (h : b.amount = RawAmount.num 0 ∨ b.description = "") :
    (submit store w u b).resp = respValidationTx ∧
    (submit store w u b).created = none ∧
    (submit store w u b).store = store := by
  have hval : b.description = "" ∨ b.amount.falsy ∨ b.type = "" := by
    rcases h with h | h
    · refine Or.inr (Or.inl ?_)
      rw [h]
      decide
    · exact Or.inl h
  refine ⟨?_, ?_, ?_⟩ <;> simp [submit, hval]

/-- Witness for C10: a concrete amount-0 submission and a concrete
empty-description submission both fail with the validation error and
write nothing. -/
theorem claim_C10_falsy_required_fields_witness :
    (submit sampleStore "0xW1" "u1" ⟨"Zero amount", RawAmount.num 0, "income", none, none⟩).resp =
      respValidationTx ∧
    (submit sampleStore "0xW1" "u1" ⟨"Zero amount", RawAmount.num 0, "income", none, none⟩).store =
      sampleStore ∧
    (submit sampleStore "0xW1" "u1" ⟨"", RawAmount.num 5, "income", none, none⟩).created = none := by
  have ha := claim_C10_falsy_required_fields sampleStore "0xW1" "u1"
    ⟨"Zero amount", RawAmount.num 0, "income", none, none⟩ (Or.inl rfl)
  have hd := claim_C10_falsy_required_fields sampleStore "0xW1" "u1"
    ⟨"", RawAmount.num 5, "income", none, none⟩ (Or.inr rfl)
  exact ⟨ha.1, ha.2.2, hd.2.1⟩

/-- C9: a login whose email matches no principal and a login whose
principal exists but whose password fails verification produce the
same response — same status code, same message — so the caller cannot
tell which credential was wrong. -/
theorem claim_C9_login_indistinguishable (users : List RegUser)
    (verify : String → String → Bool) (e1 p1 e2 p2 : String) (u : RegUser)
    (he1 : e1 ≠ "") (hp1 : p1 ≠ "") (he2 : e2 ≠ "") (hp2 : p2 ≠ "")
    (hnone : findUserByEmail users e1 = none)
    (hsome : findUserByEmail users e2 = some u)
    (hbad : verify p2 u.password = false) :
    login users verify e1 p1 = respInvalidCredentials ∧
    login users verify e2 p2 = respInvalidCredentials ∧
    login users verify e1 p1 = login users verify e2 p2 := by
  have hv1 : ¬(e1 = "" ∨ p1 = "") := by
    rintro (hc | hc)
    · exact he1 hc
    · exact hp1 hc
  have hv2 : ¬(e2 = "" ∨ p2 = "") := by
    rintro (hc | hc)
    · exact he2 hc
    · exact hp2 hc
  refine ⟨?_, ?_, ?_⟩ <;> simp [login, hv1, hv2, hnone, hsome, hbad]

/-- A concrete user table for the login witness. -/
def sampleUsers : List RegUser := [⟨"bob", "b@x.com", "hashed1", "0xW2"⟩]

/-- Witness for C9: with one registered user, an unknown email and a
wrong password yield the identical invalid-credentials response. -/
theorem claim_C9_login_indistinguishable_witness :
    login sampleUsers (fun p h => p == h) "a@x.com" "pw" = respInvalidCredentials ∧
    login sampleUsers (fun p h => p == h) "b@x.com" "wrong" = respInvalidCredentials := by
  have h := claim_C9_login_indistinguishable sampleUsers (fun p h => p == h)
    "a@x.com" "pw" "b@x.com" "wrong" ⟨"bob", "b@x.com", "hashed1", "0xW2"⟩
    (by decide) (by decide) (by decide) (by decide) (by decide) (by decide) (by decide)
  exact ⟨h.1, h.2.1⟩

/-! ## C7: side effects of failed requests

The registration handler draws the wallet from the pool before
`user.save()` runs; when the save fails the catch block answers with an
error but the drawn wallet stays in the assigned set. -/

/-- Counterexample to C7 as stated: a registration against a fresh
state whose user-record write fails produces an error response, yet the
wallet pool's assigned set has grown from `[]` to holding the first
pool address — a partial side effect. -/
theorem claim_C7_counterexample :
    (register AVAILABLE_WALLETS ⟨[], []⟩ "alice" "a@x.com" "secret1"
        (fun s => s) false).1.success = false ∧
    (register AVAILABLE_WALLETS ⟨[], []⟩ "alice" "a@x.com" "secret1"
        (fun s => s) false).2.assigned =
      ["0x90F8bf6A479f320ead074411a4B0e7944Ea8c9C1"] ∧
    (⟨[], []⟩ : RegState).assigned = [] := by
  decide

/-- C7 amended: failed transaction submissions write no record and
leave the store unchanged (submissions never touch the wallet pool),
and registration failures occurring before the wallet draw
(validation, duplicate user, pool exhaustion) leave the whole state
unchanged; but a registration that fails at the user-record write
after a wallet was drawn, while persisting no user record, leaves the
drawn wallet in the pool's assigned set — the draw is not rolled
back. -/
theorem claim_C7_amended (pool : List String) (st : RegState) (store : List Tx)
    (w u username email password : String) (b : SubmitBody) (hash : String → String) :
    ((submit store w u b).created = none → (submit store w u b).store = store) ∧
    ((register pool st username email password hash true).1.success = false →
        (register pool st username email password hash true).2 = st) ∧
    ((register pool st username email password hash false).1.success = false ∧
     (register pool st username email password hash false).2.users = st.users) ∧
    (username ≠ "" → email ≠ "" → password ≠ "" →
     st.users.any (fun x => x.email == email || x.username == username) = false →
     ∀ w' assigned', getAvailableWallet pool st.assigned = some (w', assigned') →
       (register pool st username email password hash false).2.assigned =
         st.assigned ++ [w']) := by
  refine ⟨?_, ?_, ?_, ?_⟩
  · intro hnone
    rcases submit_store_shape store w u b with ⟨hs, _⟩ | ⟨hc, _⟩
    · exact hs
    · rw [hc] at hnone
      simp at hnone
  · intro hfail
    by_cases hval : username = "" ∨ email = "" ∨ password = ""
    · simp [register, hval]
    · by_cases hdup : st.users.any (fun x => x.email == email || x.username == username) = true
      · simp [register, hval, hdup]
      · cases hga : getAvailableWallet pool st.assigned with
        | none => simp [register, hval, hdup, hga]
        | some pr =>
            obtain ⟨w', a'⟩ := pr
            exfalso
            simp [register, hval, hdup, hga, respRegCreated] at hfail
  · by_cases hval : username = "" ∨ email = "" ∨ password = ""
    · constructor <;> simp [register, hval, respRegValidation]
    · by_cases hdup : st.users.any (fun x => x.email == email || x.username == username) = true
      · constructor <;> simp [register, hval, hdup, respRegDuplicate]
      · cases hga : getAvailableWallet pool st.assigned with
        | none => constructor <;> simp [register, hval, hdup, hga, respPoolExhausted]
        | some pr =>
            obtain ⟨w', a'⟩ := pr
            constructor <;> simp [register, hval, hdup, hga, respServerError]
  · intro hun hem hpw hdup w' a' hga
    have hval : ¬(username = "" ∨ email = "" ∨ password = "") := by
      rintro (hc | hc | hc)
      · exact hun hc
      · exact hem hc
      · exact hpw hc
    have ha' : a' = st.assigned ++ [w'] := (getAvailableWallet_spec hga).2.2
    simp [register, hval, hdup, hga, ha']

/-- Witness for the amended C7: concretely, a failed registration past
all pre-draw checks keeps the drawn first pool address assigned, and a
failed submission (empty description) leaves the store unchanged. -/
theorem claim_C7_amended_witness :
    (register AVAILABLE_WALLETS ⟨[], []⟩ "bob" "b@x.com" "pw"
        (fun s => s) false).2.assigned =
      [] ++ ["0x90F8bf6A479f320ead074411a4B0e7944Ea8c9C1"] ∧
    (submit [] "0xW1" "u1" ⟨"", RawAmount.num 1, "income", none, none⟩).store = [] := by
  have h := claim_C7_amended AVAILABLE_WALLETS ⟨[], []⟩ [] "0xW1" "u1"
    "bob" "b@x.com" "pw" ⟨"", RawAmount.num 1, "income", none, none⟩ (fun s => s)
  refine ⟨?_, h.1 (by decide)⟩
  exact h.2.2.2 (by decide) (by decide) (by decide) (by decide)
    "0x90F8bf6A479f320ead074411a4B0e7944Ea8c9C1"
    ["0x90F8bf6A479f320ead074411a4B0e7944Ea8c9C1"] (by decide)

/-! ## Aggregation lemmas -/

theorem foldl_add_eq_sum (l : List Rat) : ∀ a : Rat, l.foldl (· + ·) a = a + l.sum := by
  induction l with
  | nil => intro a; simp
  | cons x xs ih =>
      intro a
      simp only [List.foldl_cons, List.sum_cons, ih (a + x)]
      ring

theorem sumCategoryTotals_update (acc : List (String × CategoryBucket)) (t : Tx) :
    sumCategoryTotals (updateCategory acc t) = sumCategoryTotals acc + t.amount := by
  induction acc with
  | nil => simp [updateCategory, sumCategoryTotals, bumpBucket]
  | cons p rest ih =>
      obtain ⟨c, bkt⟩ := p
      by_cases hc : c = t.category
      · simp only [updateCategory, if_pos hc, sumCategoryTotals, List.map_cons,
          List.sum_cons, bumpBucket]
        ring
      · simp only [updateCategory, if_neg hc, sumCategoryTotals, List.map_cons,
          List.sum_cons] at *
        rw [ih]
        ring

theorem sumCategoryTotals_fold (ts : List Tx) :
    ∀ acc, sumCategoryTotals (ts.foldl updateCategory acc) =
      sumCategoryTotals acc + (ts.map Tx.amount).sum := by
  induction ts with
  | nil => intro acc; simp
  | cons t ts ih =>
      intro acc
      simp only [List.foldl_cons, List.map_cons, List.sum_cons, ih, sumCategoryTotals_update]
      ring

theorem sum_amount_split (ts : List Tx)
    (h : ∀ t ∈ ts, t.type = "income" ∨ t.type = "expense") :
    (ts.map Tx.amount).sum =
      ((ts.filter fun t => t.type = "income").map Tx.amount).sum +
      ((ts.filter fun t => t.type = "expense").map Tx.amount).sum := by
  induction ts with
  | nil => simp
  | cons t ts ih =>
      have hrest := ih fun s hs => h s (List.mem_cons_of_mem _ hs)
      rcases h t (List.mem_cons_self _ _) with ht | ht
      · have hne : ¬(t.type = "expense") := by rw [ht]; decide
        simp only [List.map_cons, List.sum_cons, List.filter_cons, ht, hne]
        simp [hrest]
        ring
      · have hne : ¬(t.type = "income") := by rw [ht]; decide
        simp only [List.map_cons, List.sum_cons, List.filter_cons, ht, hne]
        simp [hrest]
        ring

/-- C6: for every transaction set (empty included, directions drawn
from the schema's income/expense enum), the summary's balance equals
totalIncome minus totalExpenses, and the category buckets' totals sum
to totalIncome plus totalExpenses. -/
theorem claim_C6_summary_algebra (ts : List Tx)
    (h : ∀ t ∈ ts, t.type = "income" ∨ t.type = "expense") :
    (summarize ts).balance = (summarize ts).totalIncome - (summarize ts).totalExpenses ∧
    sumCategoryTotals (summarize ts).byCategory =
      (summarize ts).totalIncome + (summarize ts).totalExpenses := by
  constructor
  · rfl
  · simp only [summarize]
    rw [sumCategoryTotals_fold ts [], foldl_add_eq_sum, foldl_add_eq_sum]
    have hsplit := sum_amount_split ts h
    simp [sumCategoryTotals, hsplit]

/-- Witness for C6 on a concrete two-transaction set (income 1000 in
salary, expense 400 in rent). -/
theorem claim_C6_summary_algebra_witness :
    (summarize sampleStore).balance =
      (summarize sampleStore).totalIncome - (summarize sampleStore).totalExpenses ∧
    sumCategoryTotals (summarize sampleStore).byCategory =
      (summarize sampleStore).totalIncome + (summarize sampleStore).totalExpenses :=
  claim_C6_summary_algebra sampleStore (by decide)

/-! ## C4 and C5: wallet pool claims -/

theorem runAssigns_add (pool : List String) :
    ∀ (m n : Nat) (a : List String),
      runAssigns pool (m + n) a =
        ((runAssigns pool m a).1 ++ (runAssigns pool n (runAssigns pool m a).2).1,
         (runAssigns pool n (runAssigns pool m a).2).2) := by
  intro m
  induction m with
  | zero => intro n a; simp [runAssigns, Nat.zero_add]
  | succ k ih =>
      intro n a
      rw [show k + 1 + n = (k + n) + 1 by omega]
      cases hga : getAvailableWallet pool a with
      | none => simp only [runAssigns, hga, ih n a, List.cons_append]
      | some pr =>
          obtain ⟨w', a'⟩ := pr
          simp only [runAssigns, hga, ih n a', List.cons_append]

/-- C4: over a duplicate-free pool of N addresses, N+1 registrations
starting from an empty assigned set hand out each pool address exactly
once — pairwise distinct — and the (N+1)-th draw fails with the
pool-exhausted error; moreover every successful draw only grows the
assigned set (appending a previously unassigned address, preserving
distinctness), and no release operation exists. -/
theorem claim_C4_wallet_exclusivity (pool : List String) (hnd : pool.Nodup) :
    (runAssigns pool (pool.length + 1) []).1 = pool.map some ++ [none] ∧
    (pool.map some).Nodup ∧
    (∀ assigned w assigned',
        getAvailableWallet pool assigned = some (w, assigned') →
          assigned' = assigned ++ [w] ∧ w ∉ assigned ∧
          (assigned.Nodup → assigned'.Nodup)) := by
  refine ⟨?_, ?_, ?_⟩
  · have hN := runAssigns_take hnd pool.length 0 (by omega)
    simp only [List.take_zero, List.drop_zero, Nat.zero_add, List.take_length] at hN
    rw [runAssigns_add pool pool.length 1 [], hN]
    have hexh : getAvailableWallet pool pool = none :=
      getAvailableWallet_exhausted fun w hw => hw
    simp [runAssigns, hexh]
  · exact hnd.map (Option.some_injective _)
  · intro assigned w assigned' hga
    have hs := getAvailableWallet_spec hga
    refine ⟨hs.2.2, hs.2.1, fun hnda => ?_⟩
    rw [hs.2.2]
    simp [List.nodup_append, hnda, hs.2.1]

/-- Witness for C4 at the process's actual ten-address pool. -/
theorem claim_C4_wallet_exclusivity_witness :
    (runAssigns AVAILABLE_WALLETS (AVAILABLE_WALLETS.length + 1) []).1 =
      AVAILABLE_WALLETS.map some ++ [none] ∧
    (AVAILABLE_WALLETS.map some).Nodup :=
  ⟨(claim_C4_wallet_exclusivity AVAILABLE_WALLETS (by decide)).1,
   (claim_C4_wallet_exclusivity AVAILABLE_WALLETS (by decide)).2.1⟩

/-- C5: over a two-address pool {w1, w2} with an empty assigned set,
the scan hands out w1 first, then w2, and the third draw fails with
the pool-exhausted error — in pool-definition order. -/
theorem claim_C5_scan_order (w1 w2 : String) (h : w1 ≠ w2) :
    getAvailableWallet [w1, w2] [] = some (w1, [w1]) ∧
    getAvailableWallet [w1, w2] [w1] = some (w2, [w1, w2]) ∧
    getAvailableWallet [w1, w2] [w1, w2] = none ∧
    runAssigns [w1, w2] 3 [] = ([some w1, some w2, none], [w1, w2]) := by
  have h21 : w2 ≠ w1 := Ne.symm h
  refine ⟨?_, ?_, ?_, ?_⟩ <;> simp [getAvailableWallet, runAssigns, h, h21]

/-- Witness for C5 at two concrete addresses. -/
theorem claim_C5_scan_order_witness :
    getAvailableWallet ["W1", "W2"] [] = some ("W1", ["W1"]) ∧
    getAvailableWallet ["W1", "W2"] ["W1"] = some ("W2", ["W1", "W2"]) ∧
    getAvailableWallet ["W1", "W2"] ["W1", "W2"] = none ∧
    runAssigns ["W1", "W2"] 3 [] = ([some "W1", some "W2", none], ["W1", "W2"]) :=
  claim_C5_scan_order "W1" "W2" (by decide)
